import Mathlib

/-!
Shallow embedding of the Azure Arc SSH inventory plugin
(plugins/inventory/azure_arc.py) and verification of its specification.

The plugin's only logic is: verify a config file name, load a flat
configuration, delete a stale SSH config file, shell out to the Azure CLI
to list Arc-connected machines, shell out once more per machine to generate
an SSH config stanza, and register each machine as an inventory host with
three connection variables.

The embedding models:
  - the external world (the `az` CLI and the filesystem) as an oracle
    `World` giving the outcome of each subprocess invocation;
  - the Ansible inventory object as an explicit registry (`Inventory`);
  - the observable actions of a run (file removal, subprocess invocations)
    as a trace of `Event`s, so ordering claims can be stated;
  - Python exceptions as an `Option PError` result alongside the state
    reached when the exception propagates (the inventory is mutated in
    place by the Python code, so partially registered hosts survive).
-/

namespace AzureArc

/-- A machine record as parsed from the listing command's JSON output.
`get_arc_machines` keeps only the `name` field of each object. -/
structure Machine where
  name : String
deriving DecidableEq, Repr

/-- Observable side effects of a run, in order: deleting a file
(`os.remove`), invoking the machine-listing subprocess, invoking the
SSH-config-generation subprocess.  Commands are recorded as the full
argument vector passed to `subprocess.run`. -/
inductive Event where
  | removeFile (path : String)
  | runListCmd (cmd : List String)
  | runGenCmd (cmd : List String)
deriving DecidableEq, Repr

/-- Python exceptions raised by the plugin: `ValueError` for configuration
validation, and plain `Exception` wrapping a failed subprocess. -/
inductive PError where
  | valueError (msg : String)
  | exception (msg : String)
deriving DecidableEq, Repr

/-- The configuration document returned by `_read_config_data`:
a flat mapping; `none` models an absent key (Python `dict.get` returns
`None`), `some s` a key bound to string `s`. -/
structure Config where
  subscription_id : Option String := none
  resource_group : Option String := none
  username : Option String := none
  config_file_path : Option String := none
  private_key_file : Option String := none
deriving DecidableEq, Repr

/-- Python truthiness test `not x` for an optional string option:
true when the key is absent (`None`) or bound to a falsy value
(the empty string). -/
def isFalsy : Option String → Bool
  | none => true
  | some s => s.isEmpty

/-- The external environment of one run: the user's home directory
(for `os.path.expanduser`) and the behavior of the `az` CLI.
`runList cmd` is the outcome of `subprocess.run(cmd, capture_output=True,
check=True, text=True)` followed by `json.loads` of its stdout:
`.error e` models a `CalledProcessError` with string form `e`, `.ok ms`
a zero exit whose stdout parses to the machine list `ms`.
`runGen cmd` is the outcome of `subprocess.run(cmd, check=True)`:
`none` a zero exit, `some e` a `CalledProcessError` with string form `e`. -/
structure World where
  homeDir : String
  runList : List String → Except String (List Machine)
  runGen : List String → Option String

/-- Embeds `os.path.expanduser`: replace a leading `~` with the home directory. -/
def expanduser (home path : String) : String :=
  if path.startsWith "~" then home ++ path.drop 1 else path

/-- The host-provided inventory object: registered host names (in
registration order) and an association list from (host, variable name)
to variable value. -/
structure Inventory where
  hosts : List String
  vars : List ((String × String) × String)
deriving DecidableEq, Repr

def Inventory.empty : Inventory := ⟨[], []⟩

/-- Embeds `inventory.add_host(name)`: registers the host if not yet present. -/
def add_host (inv : Inventory) (name : String) : Inventory :=
  if name ∈ inv.hosts then inv else { inv with hosts := inv.hosts ++ [name] }

/-- Update-or-append in an association list, used for `set_variable`. -/
def setAssoc : List ((String × String) × String) → String × String → String →
    List ((String × String) × String)
  | [], k, v => [(k, v)]
  | (k', v') :: rest, k, v =>
    if k' = k then (k, v) :: rest else (k', v') :: setAssoc rest k v

/-- Embeds `inventory.set_variable(host, var, val)`. -/
def set_variable (inv : Inventory) (host var val : String) : Inventory :=
  { inv with vars := setAssoc inv.vars (host, var) val }

/-- The variables set on host `h`, in order: used to state that a host has
exactly a given list of (variable, value) pairs. -/
def hostVars (inv : Inventory) (h : String) : List (String × String) :=
  inv.vars.filterMap (fun p => if p.1.1 = h then some (p.1.2, p.2) else none)

/-- The `az connectedmachine list` argument vector built by
`get_arc_machines`. -/
def listCommand (resource_group : String) (subscription_id : Option String) :
    List String :=
  ["az", "connectedmachine", "list",
   "--resource-group", resource_group,
   "--output", "json"] ++
  (match subscription_id with
   | some s => ["--subscription", s]
   | none => [])

/-- The `az ssh config` argument vector built by `generate_ssh_config`. -/
def genCommand (vm_name resource_group local_user private_key_file
    config_file_path : String) (subscription_id : Option String) :
    List String :=
  ["az", "ssh", "config",
   "--vm-name", vm_name,
   "--resource-group", resource_group,
   "--local-user", local_user,
   "--private-key-file", private_key_file,
   "--file", config_file_path] ++
  (match subscription_id with
   | some s => ["--subscription", s]
   | none => [])

/-- Embeds `InventoryModule.get_arc_machines`: run the listing command; on success
keep only each machine's `name` field; on `CalledProcessError` raise
`Exception(f"Failed to retrieve Azure Arc machines: {e}")`.
Returns the events emitted together with the result. -/
def get_arc_machines (w : World) (resource_group : String)
    (subscription_id : Option String) :
    List Event × Except PError (List Machine) :=
  let command := listCommand resource_group subscription_id
  ([Event.runListCmd command],
   match w.runList command with
   | .ok machines => .ok (machines.map fun machine => { name := machine.name })
   | .error e =>
     .error (.exception ("Failed to retrieve Azure Arc machines: " ++ e)))

/-- Embeds `InventoryModule.generate_ssh_config`: run the generation command; on
success return the alias `resource_group + "-" + vm_name + "-" + local_user`;
on `CalledProcessError` raise
`Exception(f"Failed to generate SSH config: {e}")`. -/
def generate_ssh_config (w : World) (vm_name resource_group local_user
    private_key_file config_file_path : String)
    (subscription_id : Option String) :
    List Event × Except PError String :=
  let command := genCommand vm_name resource_group local_user
    private_key_file config_file_path subscription_id
  ([Event.runGenCmd command],
   match w.runGen command with
   | none => .ok (resource_group ++ "-" ++ vm_name ++ "-" ++ local_user)
   | some e => .error (.exception ("Failed to generate SSH config: " ++ e)))

/-- The `for machine in machines` loop body of `parse`: for each machine,
generate its SSH config entry, then register the host and set its three
variables.  A generation failure propagates at once: the remaining machines
are not processed.  Returns the events emitted, the final inventory, and
the propagated exception if any. -/
def processMachines (w : World) (resource_group username private_key_file
    config_file_path : String) (subscription_id : Option String) :
    List Machine → Inventory → List Event × Inventory × Option PError
  | [], inv => ([], inv, none)
  | machine :: rest, inv =>
    let res := generate_ssh_config w machine.name resource_group username
      private_key_file config_file_path subscription_id
    match res.2 with
    | .error e => (res.1, inv, some e)
    | .ok new_host_name =>
      let inv1 := add_host inv machine.name
      let inv2 := set_variable inv1 machine.name "ansible_host" new_host_name
      let inv3 := set_variable inv2 machine.name "ansible_connection" "ssh"
      let inv4 := set_variable inv3 machine.name "ansible_ssh_common_args"
        ("-F " ++ config_file_path)
      let tail := processMachines w resource_group username private_key_file
        config_file_path subscription_id rest inv4
      (res.1 ++ tail.1, tail.2.1, tail.2.2)

/-- The mutable state a run acts on: the set of existing file paths, the
inventory object, and the trace of events emitted so far. -/
structure RunState where
  fs : List String
  inv : Inventory
  trace : List Event
deriving DecidableEq, Repr

/-- Embeds `InventoryModule.parse(inventory, loader, path, cache=True)`.
The configuration document `cfg` stands for `_read_config_data(path)`;
`path` and `cache` are the remaining parameters of the Python signature
(`cache` is accepted and never used).  Returns the state reached and the
propagated exception, if any; on an exception the state holds whatever
was mutated before the raise. -/
def parse (w : World) (cfg : Config) (path : String) (cache : Bool)
    (st : RunState) : RunState × Option PError :=
  let subscription_id := cfg.subscription_id
  let config_file_path := cfg.config_file_path.getD "/tmp/azure_arc_ssh_config"
  let private_key_file :=
    cfg.private_key_file.getD (expanduser w.homeDir "~/.ssh/id_rsa")
  if isFalsy cfg.resource_group then
    (st, some (PError.valueError "Azure Resource Group must be provided."))
  else if isFalsy cfg.username then
    (st, some (PError.valueError "Username for SSH connection must be provided."))
  else
    let resource_group := cfg.resource_group.getD ""
    let username := cfg.username.getD ""
    let st1 : RunState :=
      if config_file_path ∈ st.fs then
        { st with
          fs := st.fs.filter (fun q => decide (q ≠ config_file_path)),
          trace := st.trace ++ [Event.removeFile config_file_path] }
      else st
    let listRes := get_arc_machines w resource_group subscription_id
    let st2 := { st1 with trace := st1.trace ++ listRes.1 }
    match listRes.2 with
    | .error e => (st2, some e)
    | .ok machines =>
      let pm := processMachines w resource_group username private_key_file
        config_file_path subscription_id machines st2.inv
      ({ st2 with inv := pm.2.1, trace := st2.trace ++ pm.1 }, pm.2.2)

/-- Embeds `InventoryModule.verify_file(path)`:
`path.endswith(("azure_arc.yaml", "azure_arc.yml"))`, i.e. the character
sequence of one of the two suffixes ends the character sequence of `path`. -/
def verify_file (path : String) : Bool :=
  "azure_arc.yaml".data.isSuffixOf path.data ||
    "azure_arc.yml".data.isSuffixOf path.data

/-! ### Helper notions used to state and prove the claims -/

/-- The inventory mutation the loop body performs for one machine whose
SSH config generation succeeded: register the host and set its three
variables (the generated alias, the constant connection type, and the
`-F` argument). -/
def registerOne (resource_group username config_file_path : String)
    (inv : Inventory) (m : Machine) : Inventory :=
  set_variable
    (set_variable
      (set_variable (add_host inv m.name)
        m.name "ansible_host"
        (resource_group ++ "-" ++ m.name ++ "-" ++ username))
      m.name "ansible_connection" "ssh")
    m.name "ansible_ssh_common_args" ("-F " ++ config_file_path)

/-- The three variable entries a successfully processed machine
contributes to the inventory, in the order they are set. -/
def machineVars (resource_group username config_file_path : String)
    (m : Machine) : List ((String × String) × String) :=
  [((m.name, "ansible_host"),
      resource_group ++ "-" ++ m.name ++ "-" ++ username),
   ((m.name, "ansible_connection"), "ssh"),
   ((m.name, "ansible_ssh_common_args"), "-F " ++ config_file_path)]

/-- The SSH-config-generation commands recorded in a trace, in order. -/
def genCmds (trace : List Event) : List (List String) :=
  trace.filterMap fun e =>
    match e with
    | .runGenCmd c => some c
    | _ => none

/-- The paths of the file removals recorded in a trace, in order. -/
def rmEvents (trace : List Event) : List String :=
  trace.filterMap fun e =>
    match e with
    | .removeFile p => some p
    | _ => none

/-- The effective config file path: the configured value or its default. -/
def effConfigPath (cfg : Config) : String :=
  cfg.config_file_path.getD "/tmp/azure_arc_ssh_config"

/-- The effective private key file: the configured value or the expanded
default `~/.ssh/id_rsa`. -/
def effPrivateKey (w : World) (cfg : Config) : String :=
  cfg.private_key_file.getD (expanduser w.homeDir "~/.ssh/id_rsa")

/-- The resource group string used once validation passed. -/
def effRG (cfg : Config) : String := cfg.resource_group.getD ""

/-- The username string used once validation passed. -/
def effUser (cfg : Config) : String := cfg.username.getD ""

/-- The state after the stale-config-file deletion step of `parse`. -/
def afterDelete (cfg : Config) (st : RunState) : RunState :=
  if effConfigPath cfg ∈ st.fs then
    { st with
      fs := st.fs.filter (fun q => decide (q ≠ effConfigPath cfg)),
      trace := st.trace ++ [Event.removeFile (effConfigPath cfg)] }
  else st

/-! ### Concrete data used to exercise the theorems -/

/-- A valid sample configuration document. -/
def sampleCfg : Config :=
  { subscription_id := none
    resource_group := some "rg"
    username := some "alice"
    config_file_path := none
    private_key_file := none }

/-- A world whose listing returns two machines and whose generation
commands all succeed. -/
def wOk : World :=
  { homeDir := "/home/me"
    runList := fun _ => Except.ok [{ name := "vmA" }, { name := "vmB" }]
    runGen := fun _ => none }

/-- A world whose machine-listing command exits non-zero. -/
def wListFail : World :=
  { homeDir := "/home/me"
    runList := fun _ => Except.error "exit 1"
    runGen := fun _ => none }

/-- A world listing three machines where generation fails exactly for the
command whose `--vm-name` argument (the fifth element of the argument
vector built by `generate_ssh_config`) is vmB, the second machine. -/
def wGenFail : World :=
  { homeDir := "/home/me"
    runList := fun _ =>
      Except.ok [{ name := "vmA" }, { name := "vmB" }, { name := "vmC" }]
    runGen := fun cmd =>
      match cmd with
      | _ :: _ :: _ :: _ :: vm :: _ =>
        if vm = "vmB" then some "exit 1" else none
      | _ => none }

/-- A world listing one machine whose generation command always fails. -/
def wGenFailAll : World :=
  { homeDir := "/home/me"
    runList := fun _ => Except.ok [{ name := "vmA" }]
    runGen := fun _ => some "exit 1" }

/-- Initial state: empty filesystem, empty inventory, empty trace. -/
def st0 : RunState := { fs := [], inv := Inventory.empty, trace := [] }

/-- Initial state with a stale file at the default config path. -/
def stPre : RunState :=
  { fs := ["/tmp/azure_arc_ssh_config"], inv := Inventory.empty, trace := [] }

/-- Claim C1 exactly as stated: whenever validation passes and the listing
command succeeds with a given machine list (names non-empty and unique),
the inventory ends up with exactly one host per listed machine — with no
assumption on the per-machine generation commands. -/
def C1_as_stated : Prop :=
  ∀ (w : World) (cfg : Config) (path : String) (cache : Bool)
    (fs : List String) (machines : List Machine),
    isFalsy cfg.resource_group = false →
    isFalsy cfg.username = false →
    w.runList (listCommand (effRG cfg) cfg.subscription_id) =
      Except.ok machines →
    (∀ m ∈ machines, m.name ≠ "") →
    (machines.map Machine.name).Nodup →
    (parse w cfg path cache ⟨fs, Inventory.empty, []⟩).1.inv.hosts =
      machines.map Machine.name

/-! ### Basic lemmas -/

theorem map_mk_name (machines : List Machine) :
    machines.map (fun machine => ({ name := machine.name } : Machine)) =
      machines := by
  rw [show (fun machine : Machine => ({ name := machine.name } : Machine)) = id
      from funext fun m => rfl]
  exact List.map_id machines

theorem setAssoc_fresh (l : List ((String × String) × String))
    (k : String × String) (v : String) (hk : k ∉ l.map Prod.fst) :
    setAssoc l k v = l ++ [(k, v)] := by
  induction l with
  | nil => rfl
  | cons p rest ih =>
    simp only [List.map_cons, List.mem_cons, not_or] at hk
    cases p with
    | mk k' v' =>
      simp only [setAssoc]
      rw [if_neg (by simpa using fun h => hk.1 h.symm)]
      rw [ih hk.2, List.cons_append]

theorem add_host_hosts (inv : Inventory) (n : String) (h : n ∉ inv.hosts) :
    (add_host inv n).hosts = inv.hosts ++ [n] := by
  simp [add_host, h]

theorem set_variable_hosts (inv : Inventory) (host var val : String) :
    (set_variable inv host var val).hosts = inv.hosts := rfl

theorem registerOne_hosts (rg u cfp : String) (inv : Inventory) (m : Machine)
    (h : m.name ∉ inv.hosts) :
    (registerOne rg u cfp inv m).hosts = inv.hosts ++ [m.name] := by
  simp [registerOne, set_variable, add_host_hosts, h]

theorem registerOne_vars (rg u cfp : String) (inv : Inventory) (m : Machine)
    (h : ∀ v, (m.name, v) ∉ inv.vars.map Prod.fst) :
    (registerOne rg u cfp inv m).vars = inv.vars ++ machineVars rg u cfp m := by
  have h1 : (add_host inv m.name).vars = inv.vars := by
    simp only [add_host]
    split <;> rfl
  have f2 : ((m.name, "ansible_connection") : String × String) ∉
      (inv.vars ++
        [((m.name, "ansible_host"), rg ++ "-" ++ m.name ++ "-" ++ u)]).map
        Prod.fst := by
    intro hc
    simp only [List.map_append, List.mem_append] at hc
    rcases hc with hc | hc
    · exact h _ hc
    · simp at hc
  have f3 : ((m.name, "ansible_ssh_common_args") : String × String) ∉
      (inv.vars ++
        [((m.name, "ansible_host"), rg ++ "-" ++ m.name ++ "-" ++ u)] ++
        [((m.name, "ansible_connection"), "ssh")]).map Prod.fst := by
    intro hc
    simp only [List.map_append, List.mem_append] at hc
    rcases hc with (hc | hc) | hc
    · exact h _ hc
    · simp at hc
    · simp at hc
  simp only [registerOne, set_variable, h1]
  rw [setAssoc_fresh _ _ _ (h _), setAssoc_fresh _ _ _ f2,
    setAssoc_fresh _ _ _ f3]
  simp [machineVars, List.append_assoc]

/-! ### Characterizing the per-machine loop -/

theorem processMachines_all_ok (w : World) (rg u pk cfp : String)
    (sub : Option String) (machines : List Machine) (inv : Inventory)
    (hgen : ∀ m ∈ machines, w.runGen (genCommand m.name rg u pk cfp sub) = none) :
    processMachines w rg u pk cfp sub machines inv =
      (machines.map (fun m => Event.runGenCmd (genCommand m.name rg u pk cfp sub)),
       machines.foldl (registerOne rg u cfp) inv, none) := by
  induction machines generalizing inv with
  | nil => rfl
  | cons m rest ih =>
    have hm := hgen m (List.mem_cons_self _ _)
    simp only [processMachines, generate_ssh_config, hm]
    rw [ih _ (fun m' hm' => hgen m' (List.mem_cons_of_mem _ hm'))]
    simp [registerOne, List.foldl_cons]

theorem processMachines_fail (w : World) (rg u pk cfp : String)
    (sub : Option String) (pre : List Machine) (mf : Machine)
    (post : List Machine) (inv : Inventory) (e : String)
    (hpre : ∀ m ∈ pre, w.runGen (genCommand m.name rg u pk cfp sub) = none)
    (hfail : w.runGen (genCommand mf.name rg u pk cfp sub) = some e) :
    processMachines w rg u pk cfp sub (pre ++ mf :: post) inv =
      ((pre ++ [mf]).map
        (fun m => Event.runGenCmd (genCommand m.name rg u pk cfp sub)),
       pre.foldl (registerOne rg u cfp) inv,
       some (PError.exception ("Failed to generate SSH config: " ++ e))) := by
  induction pre generalizing inv with
  | nil =>
    simp [processMachines, generate_ssh_config, hfail]
  | cons m rest ih =>
    have hm := hpre m (List.mem_cons_self _ _)
    simp only [List.cons_append, processMachines, generate_ssh_config, hm,
      List.append_eq]
    rw [ih _ (fun m' hm' => hpre m' (List.mem_cons_of_mem _ hm'))]
    simp [List.foldl_cons, registerOne]

theorem processMachines_no_removeFile (w : World) (rg u pk cfp : String)
    (sub : Option String) (machines : List Machine) (inv : Inventory) :
    ∀ p, Event.removeFile p ∉
      (processMachines w rg u pk cfp sub machines inv).1 := by
  induction machines generalizing inv with
  | nil => intro p; simp [processMachines]
  | cons m rest ih =>
    intro p
    simp only [processMachines, generate_ssh_config]
    cases hw : w.runGen (genCommand m.name rg u pk cfp sub) with
    | none => simp only [hw]; simp [ih]
    | some e => simp only [hw]; simp

theorem foldl_registerOne_hosts (rg u cfp : String) (machines : List Machine)
    (inv : Inventory)
    (hdisj : ∀ m ∈ machines, m.name ∉ inv.hosts)
    (hnodup : (machines.map Machine.name).Nodup) :
    (machines.foldl (registerOne rg u cfp) inv).hosts =
      inv.hosts ++ machines.map Machine.name := by
  induction machines generalizing inv with
  | nil => simp
  | cons m rest ih =>
    simp only [List.map_cons, List.nodup_cons] at hnodup
    have hmem : m.name ∉ inv.hosts := hdisj m (List.mem_cons_self _ _)
    have hdisj' : ∀ m' ∈ rest, m'.name ∉ (registerOne rg u cfp inv m).hosts := by
      intro m' hm'
      rw [registerOne_hosts rg u cfp inv m hmem]
      intro hc
      rcases List.mem_append.1 hc with hc | hc
      · exact hdisj m' (List.mem_cons_of_mem _ hm') hc
      · simp only [List.mem_singleton] at hc
        exact hnodup.1 (hc ▸ List.mem_map_of_mem Machine.name hm')
    rw [List.foldl_cons, ih (registerOne rg u cfp inv m) hdisj' hnodup.2,
      registerOne_hosts rg u cfp inv m hmem]
    simp

theorem foldl_registerOne_vars (rg u cfp : String) (machines : List Machine)
    (inv : Inventory)
    (hfresh : ∀ m ∈ machines, ∀ v,
      ((m.name, v) : String × String) ∉ inv.vars.map Prod.fst)
    (hnodup : (machines.map Machine.name).Nodup) :
    (machines.foldl (registerOne rg u cfp) inv).vars =
      inv.vars ++ (machines.map (machineVars rg u cfp)).flatten := by
  induction machines generalizing inv with
  | nil => simp
  | cons m rest ih =>
    simp only [List.map_cons, List.nodup_cons] at hnodup
    have hm := fun v' => hfresh m (List.mem_cons_self _ _) v'
    have hfresh' : ∀ m' ∈ rest, ∀ v,
        ((m'.name, v) : String × String) ∉
          (registerOne rg u cfp inv m).vars.map Prod.fst := by
      intro m' hm' v
      rw [registerOne_vars rg u cfp inv m hm]
      intro hc
      rw [List.map_append] at hc
      rcases List.mem_append.1 hc with hc | hc
      · exact hfresh m' (List.mem_cons_of_mem _ hm') v hc
      · have hname : m'.name = m.name := by
          simp [machineVars, Prod.ext_iff] at hc
          rcases hc with hc | hc | hc <;> exact hc.1
        exact hnodup.1 (hname ▸ List.mem_map_of_mem Machine.name hm')
    rw [List.foldl_cons, ih (registerOne rg u cfp inv m) hfresh' hnodup.2,
      registerOne_vars rg u cfp inv m hm]
    simp [List.append_assoc]

theorem filterMap_machineVars_flatten_not_mem (rg u cfp h : String)
    (machines : List Machine) (hnot : h ∉ machines.map Machine.name) :
    ((machines.map (machineVars rg u cfp)).flatten).filterMap
      (fun p => if p.1.1 = h then some (p.1.2, p.2) else none) = [] := by
  induction machines with
  | nil => rfl
  | cons m rest ih =>
    simp only [List.map_cons, List.mem_cons, not_or] at hnot
    have hne : m.name ≠ h := fun hc => hnot.1 hc.symm
    simp only [List.map_cons, List.flatten_cons, List.filterMap_append,
      ih hnot.2, List.append_nil]
    simp [machineVars, hne]

theorem filterMap_machineVars_flatten_mem (rg u cfp : String)
    (machines : List Machine) (m : Machine) (hmem : m ∈ machines)
    (hnodup : (machines.map Machine.name).Nodup) :
    ((machines.map (machineVars rg u cfp)).flatten).filterMap
      (fun p => if p.1.1 = m.name then some (p.1.2, p.2) else none) =
      [("ansible_host", rg ++ "-" ++ m.name ++ "-" ++ u),
       ("ansible_connection", "ssh"),
       ("ansible_ssh_common_args", "-F " ++ cfp)] := by
  induction machines with
  | nil => cases hmem
  | cons m0 rest ih =>
    simp only [List.map_cons, List.nodup_cons] at hnodup
    simp only [List.map_cons, List.flatten_cons, List.filterMap_append]
    rcases List.mem_cons.1 hmem with he | hmem'
    · subst he
      rw [filterMap_machineVars_flatten_not_mem rg u cfp m.name rest hnodup.1]
      simp [machineVars]
    · have hne : m0.name ≠ m.name := by
        intro hc
        exact hnodup.1 (by rw [hc]; exact List.mem_map_of_mem Machine.name hmem')
      rw [ih hmem' hnodup.2]
      simp [machineVars, hne]

/-! ### Characterizing `parse` on a valid configuration -/

theorem afterDelete_inv (cfg : Config) (st : RunState) :
    (afterDelete cfg st).inv = st.inv := by
  simp only [afterDelete]
  split <;> rfl

/-- Master characterization of `parse` once validation passes: the stale
file is deleted, the listing command runs, and on success the machine loop
runs on the listed machines. -/
theorem parse_valid_eq (w : World) (cfg : Config) (path : String)
    (cache : Bool) (st : RunState)
    (hrg : isFalsy cfg.resource_group = false)
    (hu : isFalsy cfg.username = false) :
    parse w cfg path cache st =
      (let st1 := afterDelete cfg st
       let cmd := listCommand (effRG cfg) cfg.subscription_id
       match w.runList cmd with
       | .error e =>
         ({ st1 with trace := st1.trace ++ [Event.runListCmd cmd] },
          some (PError.exception
            ("Failed to retrieve Azure Arc machines: " ++ e)))
       | .ok machines =>
         let pm := processMachines w (effRG cfg) (effUser cfg)
           (effPrivateKey w cfg) (effConfigPath cfg) cfg.subscription_id
           machines st.inv
         ({ st1 with
            inv := pm.2.1
            trace := st1.trace ++ [Event.runListCmd cmd] ++ pm.1 },
          pm.2.2)) := by
  simp only [parse, get_arc_machines, hrg, hu, Bool.false_eq_true, if_false,
    afterDelete, effConfigPath, effPrivateKey, effRG, effUser]
  cases hw : w.runList (listCommand (cfg.resource_group.getD "")
      cfg.subscription_id) with
  | error e => simp only [hw]
  | ok machines =>
    simp only [hw, map_mk_name]
    split <;> simp [List.append_assoc]

theorem processMachines_ok_inv (w : World) (rg u pk cfp : String)
    (sub : Option String) (machines : List Machine) (inv : Inventory)
    (h : (processMachines w rg u pk cfp sub machines inv).2.2 = none) :
    ∀ m ∈ machines, w.runGen (genCommand m.name rg u pk cfp sub) = none := by
  induction machines generalizing inv with
  | nil => intro m hm; cases hm
  | cons m0 rest ih =>
    intro m hm
    cases hw : w.runGen (genCommand m0.name rg u pk cfp sub) with
    | none =>
      rcases List.mem_cons.1 hm with he | hm'
      · exact he ▸ hw
      · simp only [processMachines, generate_ssh_config, hw] at h
        exact ih _ h m hm'
    | some e =>
      exfalso
      have hsome : (processMachines w rg u pk cfp sub (m0 :: rest) inv).2.2 =
          some (PError.exception ("Failed to generate SSH config: " ++ e)) := by
        simp [processMachines, generate_ssh_config, hw]
      rw [hsome] at h
      exact Option.noConfusion h

theorem genCmds_append (a b : List Event) :
    genCmds (a ++ b) = genCmds a ++ genCmds b :=
  List.filterMap_append a b _

theorem rmEvents_append (a b : List Event) :
    rmEvents (a ++ b) = rmEvents a ++ rmEvents b :=
  List.filterMap_append a b _

theorem rmEvents_eq_nil (l : List Event)
    (h : ∀ p, Event.removeFile p ∉ l) : rmEvents l = [] := by
  induction l with
  | nil => rfl
  | cons e rest ih =>
    cases e with
    | removeFile p => exact absurd (List.mem_cons_self _ _) (h p)
    | runListCmd c =>
      simpa [rmEvents] using
        ih (fun p hp => h p (List.mem_cons_of_mem _ hp))
    | runGenCmd c =>
      simpa [rmEvents] using
        ih (fun p hp => h p (List.mem_cons_of_mem _ hp))

theorem genCmds_map_runGen (l : List Machine) (f : Machine → List String) :
    genCmds (l.map (fun m => Event.runGenCmd (f m))) = l.map f := by
  induction l with
  | nil => rfl
  | cons m rest ih => simp [genCmds] at ih ⊢; exact ih

theorem genCmds_nil : genCmds [] = [] := rfl

theorem genCmds_cons_remove (p : String) (tl : List Event) :
    genCmds (Event.removeFile p :: tl) = genCmds tl := rfl

theorem genCmds_cons_list (c : List String) (tl : List Event) :
    genCmds (Event.runListCmd c :: tl) = genCmds tl := rfl

theorem genCmds_cons_gen (c : List String) (tl : List Event) :
    genCmds (Event.runGenCmd c :: tl) = c :: genCmds tl := rfl

theorem rmEvents_nil : rmEvents [] = [] := rfl

theorem rmEvents_cons_remove (p : String) (tl : List Event) :
    rmEvents (Event.removeFile p :: tl) = p :: rmEvents tl := rfl

theorem rmEvents_cons_list (c : List String) (tl : List Event) :
    rmEvents (Event.runListCmd c :: tl) = rmEvents tl := rfl

theorem rmEvents_cons_gen (c : List String) (tl : List Event) :
    rmEvents (Event.runGenCmd c :: tl) = rmEvents tl := rfl

theorem genCmds_afterDelete (cfg : Config) (st : RunState) :
    genCmds (afterDelete cfg st).trace = genCmds st.trace := by
  simp only [afterDelete]
  split
  · simp [genCmds_append, genCmds_cons_remove, genCmds_nil]
  · rfl

theorem Inventory.eq_mk (i : Inventory) (hs : List String)
    (vs : List ((String × String) × String))
    (h1 : i.hosts = hs) (h2 : i.vars = vs) : i = ⟨hs, vs⟩ := by
  cases i
  simp_all

/-- Full characterization of the inventory built by a run in which
validation passes, the listing succeeds, and every per-machine generation
command succeeds. -/
theorem parse_ok_inventory (w : World) (cfg : Config) (path : String)
    (cache : Bool) (fs : List String) (machines : List Machine)
    (hrg : isFalsy cfg.resource_group = false)
    (hu : isFalsy cfg.username = false)
    (hlist : w.runList (listCommand (effRG cfg) cfg.subscription_id) =
      Except.ok machines)
    (hnodup : (machines.map Machine.name).Nodup)
    (hgen : ∀ m ∈ machines, w.runGen (genCommand m.name (effRG cfg)
      (effUser cfg) (effPrivateKey w cfg) (effConfigPath cfg)
      cfg.subscription_id) = none) :
    (parse w cfg path cache ⟨fs, Inventory.empty, []⟩).1.inv =
      ⟨machines.map Machine.name,
        (machines.map (machineVars (effRG cfg) (effUser cfg)
          (effConfigPath cfg))).flatten⟩ ∧
    (parse w cfg path cache ⟨fs, Inventory.empty, []⟩).2 = none := by
  rw [parse_valid_eq _ _ _ _ _ hrg hu]
  simp only [hlist]
  rw [processMachines_all_ok w (effRG cfg) (effUser cfg) (effPrivateKey w cfg)
    (effConfigPath cfg) cfg.subscription_id machines _ hgen]
  refine ⟨?_, rfl⟩
  refine Inventory.eq_mk _ _ _ ?_ ?_
  · rw [foldl_registerOne_hosts (effRG cfg) (effUser cfg) (effConfigPath cfg)
      machines _ (fun m _ => by simp [Inventory.empty]) hnodup]
    simp [Inventory.empty]
  · rw [foldl_registerOne_vars (effRG cfg) (effUser cfg) (effConfigPath cfg)
      machines _ (fun m _ v => by simp [Inventory.empty]) hnodup]
    simp [Inventory.empty]

/-- Full characterization of a run in which validation passes, the listing
succeeds, the generation commands succeed for a prefix `pre` of the listed
machines, and then fail for machine `mf`. -/
theorem parse_genfail_run (w : World) (cfg : Config) (path : String)
    (cache : Bool) (fs : List String) (pre : List Machine) (mf : Machine)
    (post : List Machine) (e : String)
    (hrg : isFalsy cfg.resource_group = false)
    (hu : isFalsy cfg.username = false)
    (hlist : w.runList (listCommand (effRG cfg) cfg.subscription_id) =
      Except.ok (pre ++ mf :: post))
    (hpre_nodup : (pre.map Machine.name).Nodup)
    (hpre : ∀ m ∈ pre, w.runGen (genCommand m.name (effRG cfg) (effUser cfg)
      (effPrivateKey w cfg) (effConfigPath cfg) cfg.subscription_id) = none)
    (hfail : w.runGen (genCommand mf.name (effRG cfg) (effUser cfg)
      (effPrivateKey w cfg) (effConfigPath cfg) cfg.subscription_id) =
      some e) :
    (parse w cfg path cache ⟨fs, Inventory.empty, []⟩).1.inv =
      ⟨pre.map Machine.name,
        (pre.map (machineVars (effRG cfg) (effUser cfg)
          (effConfigPath cfg))).flatten⟩ ∧
    (parse w cfg path cache ⟨fs, Inventory.empty, []⟩).2 =
      some (PError.exception ("Failed to generate SSH config: " ++ e)) ∧
    genCmds (parse w cfg path cache ⟨fs, Inventory.empty, []⟩).1.trace =
      (pre ++ [mf]).map (fun m => genCommand m.name (effRG cfg) (effUser cfg)
        (effPrivateKey w cfg) (effConfigPath cfg) cfg.subscription_id) := by
  rw [parse_valid_eq _ _ _ _ _ hrg hu]
  simp only [hlist]
  rw [processMachines_fail w (effRG cfg) (effUser cfg) (effPrivateKey w cfg)
    (effConfigPath cfg) cfg.subscription_id pre mf post _ e hpre hfail]
  refine ⟨?_, rfl, ?_⟩
  · refine Inventory.eq_mk _ _ _ ?_ ?_
    · rw [foldl_registerOne_hosts (effRG cfg) (effUser cfg) (effConfigPath cfg)
        pre _ (fun m _ => by simp [Inventory.empty]) hpre_nodup]
      simp [Inventory.empty]
    · rw [foldl_registerOne_vars (effRG cfg) (effUser cfg) (effConfigPath cfg)
        pre _ (fun m _ v => by simp [Inventory.empty]) hpre_nodup]
      simp [Inventory.empty]
  · rw [genCmds_append, genCmds_append, genCmds_afterDelete,
      genCmds_map_runGen]
    simp [genCmds_nil, genCmds_cons_list]

/-! ### The claims -/

/-- C7: `verify_file(path)` returns true if and only if the path ends in
one of the two recognized extensions `azure_arc.yaml` / `azure_arc.yml`;
for any other path it returns false. -/
theorem C7_verify_file_suffixes (path : String) :
    verify_file path = true ↔
      "azure_arc.yaml".data <:+ path.data ∨
        "azure_arc.yml".data <:+ path.data := by
  simp [verify_file, List.isSuffixOf_iff_suffix]

/-- C8: the `cache` flag accepted by `parse` has no effect: for every
world, configuration, path, and starting state, the run with `cache=True`
and the run with `cache=False` produce identical results — same final
filesystem, same registered hosts and variables, same trace of external
commands, same outcome. -/
theorem C8_cache_flag_no_effect (w : World) (cfg : Config) (path : String)
    (st : RunState) :
    parse w cfg path true st = parse w cfg path false st := rfl

/-- C4: for every configuration missing `resource_group` or missing
`username`, `parse` fails with a `ValueError` and leaves the state
untouched: no external command is invoked (the trace is unchanged) and no
host is registered. -/
theorem C4_missing_required_fields (w : World) (cfg : Config) (path : String)
    (cache : Bool) (st : RunState)
    (hmiss : cfg.resource_group = none ∨ cfg.username = none) :
    (parse w cfg path cache st).1 = st ∧
      ∃ msg, (parse w cfg path cache st).2 = some (PError.valueError msg) := by
  rcases hmiss with h | h
  · exact ⟨by simp [parse, isFalsy, h],
      ⟨"Azure Resource Group must be provided.", by simp [parse, isFalsy, h]⟩⟩
  · by_cases hrg : isFalsy cfg.resource_group = true
    · exact ⟨by simp [parse, hrg],
        ⟨"Azure Resource Group must be provided.", by simp [parse, hrg]⟩⟩
    · rw [Bool.not_eq_true] at hrg
      refine ⟨?_, ⟨"Username for SSH connection must be provided.", ?_⟩⟩ <;>
      · simp only [parse, hrg, Bool.false_eq_true, if_false, h]
        simp [isFalsy]

/-- Witness for C4 at a concrete input: a configuration whose
`resource_group` key is absent. -/
theorem C4_missing_required_fields_witness :
    ((Config.mk none none (some "alice") none none).resource_group = none ∨
      (Config.mk none none (some "alice") none none).username = none) ∧
    (parse wOk (Config.mk none none (some "alice") none none)
      "inventory.azure_arc.yaml" true st0).1 = st0 :=
  ⟨Or.inl rfl,
    (C4_missing_required_fields wOk (Config.mk none none (some "alice") none none)
      "inventory.azure_arc.yaml" true st0 (Or.inl rfl)).1⟩

/-- C10: the required-field validation is truthiness-based, not
presence-based: binding `resource_group` (resp. `username`) to the empty
string behaves exactly like omitting the key — the same `ValueError` is
raised and the state is untouched. -/
theorem C10_truthiness_validation (w : World) (path : String) (cache : Bool)
    (st : RunState) (cfg : Config)
    (hrg : isFalsy cfg.resource_group = false) :
    (parse w { cfg with resource_group := some "" } path cache st =
        parse w { cfg with resource_group := none } path cache st ∧
      parse w { cfg with resource_group := some "" } path cache st =
        (st, some (PError.valueError "Azure Resource Group must be provided."))) ∧
    (parse w { cfg with username := some "" } path cache st =
        parse w { cfg with username := none } path cache st ∧
      parse w { cfg with username := some "" } path cache st =
        (st, some (PError.valueError
          "Username for SSH connection must be provided."))) := by
  have hempty : ("" : String).isEmpty = true := rfl
  refine ⟨⟨?_, ?_⟩, ?_, ?_⟩
  · simp [parse, isFalsy, hempty]
  · simp [parse, isFalsy, hempty]
  · simp only [parse, hrg, Bool.false_eq_true, if_false]
    simp [isFalsy, hempty]
  · simp only [parse, hrg, Bool.false_eq_true, if_false]
    simp [isFalsy, hempty]

/-- Witness for C10 at a concrete input. -/
theorem C10_truthiness_validation_witness :
    isFalsy sampleCfg.resource_group = false ∧
    parse wOk { sampleCfg with resource_group := some "" }
        "inventory.azure_arc.yaml" true st0 =
      (st0, some (PError.valueError "Azure Resource Group must be provided.")) ∧
    parse wOk { sampleCfg with username := some "" }
        "inventory.azure_arc.yaml" true st0 =
      (st0, some (PError.valueError
        "Username for SSH connection must be provided.")) :=
  ⟨by decide,
    (C10_truthiness_validation wOk "inventory.azure_arc.yaml" true st0
      sampleCfg (by decide)).1.2,
    (C10_truthiness_validation wOk "inventory.azure_arc.yaml" true st0
      sampleCfg (by decide)).2.2⟩

/-- C5: if the machine-listing external command exits non-zero, `parse`
aborts with the propagated error wrapped in a descriptive message, and no
host is registered in the inventory. -/
theorem C5_listing_failure_aborts (w : World) (cfg : Config) (path : String)
    (cache : Bool) (fs : List String) (e : String)
    (hrg : isFalsy cfg.resource_group = false)
    (hu : isFalsy cfg.username = false)
    (hlist : w.runList (listCommand (effRG cfg) cfg.subscription_id) =
      Except.error e) :
    (parse w cfg path cache ⟨fs, Inventory.empty, []⟩).2 =
        some (PError.exception
          ("Failed to retrieve Azure Arc machines: " ++ e)) ∧
      (parse w cfg path cache ⟨fs, Inventory.empty, []⟩).1.inv.hosts = [] := by
  rw [parse_valid_eq _ _ _ _ _ hrg hu]
  simp [hlist, afterDelete_inv, Inventory.empty]

/-- Witness for C5 at a concrete input: a world whose listing command
fails. -/
theorem C5_listing_failure_aborts_witness :
    (parse wListFail sampleCfg "inventory.azure_arc.yaml" true
        ⟨[], Inventory.empty, []⟩).2 =
      some (PError.exception
        ("Failed to retrieve Azure Arc machines: " ++ "exit 1")) ∧
    (parse wListFail sampleCfg "inventory.azure_arc.yaml" true
        ⟨[], Inventory.empty, []⟩).1.inv.hosts = [] :=
  C5_listing_failure_aborts wListFail sampleCfg "inventory.azure_arc.yaml"
    true [] "exit 1" (by decide) (by decide) rfl

/-- C9: a failed run is not atomic with respect to the output config file:
when validation passes, a file pre-existing at the configured path is
deleted, and only then is the listing command run; if the listing fails,
the run aborts with the file already gone. -/
theorem C9_failed_run_not_atomic (w : World) (cfg : Config) (path : String)
    (cache : Bool) (st : RunState) (e : String)
    (hrg : isFalsy cfg.resource_group = false)
    (hu : isFalsy cfg.username = false)
    (hmem : effConfigPath cfg ∈ st.fs)
    (hlist : w.runList (listCommand (effRG cfg) cfg.subscription_id) =
      Except.error e) :
    (parse w cfg path cache st).2 =
        some (PError.exception
          ("Failed to retrieve Azure Arc machines: " ++ e)) ∧
      effConfigPath cfg ∉ (parse w cfg path cache st).1.fs ∧
      (parse w cfg path cache st).1.trace =
        st.trace ++ [Event.removeFile (effConfigPath cfg),
          Event.runListCmd (listCommand (effRG cfg) cfg.subscription_id)] := by
  rw [parse_valid_eq _ _ _ _ _ hrg hu]
  refine ⟨by simp [hlist], ?_, ?_⟩
  · simp [hlist, afterDelete, hmem, List.mem_filter]
  · simp [hlist, afterDelete, hmem]

/-- Witness for C9 at a concrete input: a pre-existing file at the default
config path and a failing listing command. -/
theorem C9_failed_run_not_atomic_witness :
    (parse wListFail sampleCfg "inventory.azure_arc.yaml" true stPre).2 =
        some (PError.exception
          ("Failed to retrieve Azure Arc machines: " ++ "exit 1")) ∧
      effConfigPath sampleCfg ∉
        (parse wListFail sampleCfg "inventory.azure_arc.yaml" true stPre).1.fs ∧
      (parse wListFail sampleCfg "inventory.azure_arc.yaml" true stPre).1.trace =
        stPre.trace ++ [Event.removeFile (effConfigPath sampleCfg),
          Event.runListCmd (listCommand (effRG sampleCfg)
            sampleCfg.subscription_id)] :=
  C9_failed_run_not_atomic wListFail sampleCfg "inventory.azure_arc.yaml"
    true stPre "exit 1" (by decide) (by decide) (by decide) rfl

/-- C6: on a run with a valid configuration, a file already present at the
configured config path is deleted exactly once, as the very first recorded
action — in particular before any SSH-config-generation command is invoked;
if no file is present there, nothing is ever deleted and the filesystem
keeps its contents. -/
theorem C6_stale_config_deleted (w : World) (cfg : Config) (path : String)
    (cache : Bool) (st : RunState)
    (hrg : isFalsy cfg.resource_group = false)
    (hu : isFalsy cfg.username = false)
    (htr : st.trace = []) :
    (effConfigPath cfg ∈ st.fs →
      rmEvents (parse w cfg path cache st).1.trace = [effConfigPath cfg] ∧
      (parse w cfg path cache st).1.trace.head? =
        some (Event.removeFile (effConfigPath cfg))) ∧
    (effConfigPath cfg ∉ st.fs →
      (parse w cfg path cache st).1.fs = st.fs ∧
      rmEvents (parse w cfg path cache st).1.trace = []) := by
  rw [parse_valid_eq _ _ _ _ _ hrg hu]
  cases hw : w.runList (listCommand (effRG cfg) cfg.subscription_id) with
  | error e =>
    simp only [hw]
    constructor
    · intro hmem
      simp [afterDelete, hmem, htr, rmEvents_append, rmEvents_cons_remove,
        rmEvents_cons_list, rmEvents_nil]
    · intro hmem
      simp [afterDelete, hmem, htr, rmEvents_append, rmEvents_cons_list,
        rmEvents_nil]
  | ok machines =>
    have hnil := rmEvents_eq_nil _
      (processMachines_no_removeFile w (effRG cfg) (effUser cfg)
        (effPrivateKey w cfg) (effConfigPath cfg) cfg.subscription_id
        machines st.inv)
    simp only [hw]
    constructor
    · intro hmem
      simp [afterDelete, hmem, htr, rmEvents_append, rmEvents_cons_remove,
        rmEvents_cons_list, rmEvents_nil, hnil]
    · intro hmem
      simp [afterDelete, hmem, htr, rmEvents_append, rmEvents_cons_list,
        rmEvents_nil, hnil]

/-- Witness for C6 at concrete inputs: one run with a pre-existing file at
the default config path, one without. -/
theorem C6_stale_config_deleted_witness :
    (rmEvents (parse wOk sampleCfg "inventory.azure_arc.yaml" true
        stPre).1.trace = [effConfigPath sampleCfg] ∧
      (parse wOk sampleCfg "inventory.azure_arc.yaml" true
          stPre).1.trace.head? =
        some (Event.removeFile (effConfigPath sampleCfg))) ∧
    ((parse wOk sampleCfg "inventory.azure_arc.yaml" true st0).1.fs =
        st0.fs ∧
      rmEvents (parse wOk sampleCfg "inventory.azure_arc.yaml" true
        st0).1.trace = []) :=
  ⟨(C6_stale_config_deleted wOk sampleCfg "inventory.azure_arc.yaml" true
      stPre (by decide) (by decide) rfl).1 (by decide),
    (C6_stale_config_deleted wOk sampleCfg "inventory.azure_arc.yaml" true
      st0 (by decide) (by decide) rfl).2 (by decide)⟩

/-- C1, as stated, is false: when an SSH-config-generation command fails,
a run whose listing succeeded with N machine records registers fewer than
N hosts.  Concretely, with one listed machine whose generation command
fails, the inventory ends up empty. -/
theorem C1_counterexample : ¬ C1_as_stated := by
  intro h
  have hc := h wGenFailAll sampleCfg "inventory.azure_arc.yaml" true []
    [{ name := "vmA" }] (by decide) (by decide) rfl (by decide) (by decide)
  exact absurd hc (by decide)

/-- C1 (amended): for every run of `parse` in which the machine-listing
external command succeeds with N machine records (names non-empty and
unique) and every per-machine SSH-config-generation command also succeeds,
the inventory ends up with exactly N registered hosts, each named after
its record's `name` field. -/
theorem C1_hosts_after_full_success (w : World) (cfg : Config) (path : String)
    (cache : Bool) (fs : List String) (machines : List Machine)
    (hrg : isFalsy cfg.resource_group = false)
    (hu : isFalsy cfg.username = false)
    (hlist : w.runList (listCommand (effRG cfg) cfg.subscription_id) =
      Except.ok machines)
    (hne : ∀ m ∈ machines, m.name ≠ "")
    (hnodup : (machines.map Machine.name).Nodup)
    (hgen : ∀ m ∈ machines, w.runGen (genCommand m.name (effRG cfg)
      (effUser cfg) (effPrivateKey w cfg) (effConfigPath cfg)
      cfg.subscription_id) = none) :
    (parse w cfg path cache ⟨fs, Inventory.empty, []⟩).1.inv.hosts =
        machines.map Machine.name ∧
      (parse w cfg path cache ⟨fs, Inventory.empty, []⟩).2 = none := by
  obtain ⟨hinv, herr⟩ := parse_ok_inventory w cfg path cache fs machines
    hrg hu hlist hnodup hgen
  exact ⟨by rw [hinv], herr⟩

/-- Witness for the amended C1 at a concrete input: two listed machines,
all generation commands succeed, two hosts registered by name. -/
theorem C1_hosts_after_full_success_witness :
    (parse wOk sampleCfg "inventory.azure_arc.yaml" true
        ⟨[], Inventory.empty, []⟩).1.inv.hosts = ["vmA", "vmB"] ∧
      (parse wOk sampleCfg "inventory.azure_arc.yaml" true
        ⟨[], Inventory.empty, []⟩).2 = none :=
  C1_hosts_after_full_success wOk sampleCfg "inventory.azure_arc.yaml" true
    [] [{ name := "vmA" }, { name := "vmB" }] (by decide) (by decide) rfl
    (by decide) (by decide) (by decide)

/-- C2: after a successful `parse` (no propagated error), every registered
host carries exactly the three variables `ansible_host =
resource_group-vm_name-username`, `ansible_connection = ssh`, and
`ansible_ssh_common_args = -F config_file_path`, in that order and with no
other variable set. -/
theorem C2_host_variables (w : World) (cfg : Config) (path : String)
    (cache : Bool) (fs : List String) (machines : List Machine)
    (hrg : isFalsy cfg.resource_group = false)
    (hu : isFalsy cfg.username = false)
    (hlist : w.runList (listCommand (effRG cfg) cfg.subscription_id) =
      Except.ok machines)
    (hnodup : (machines.map Machine.name).Nodup)
    (hsucc : (parse w cfg path cache ⟨fs, Inventory.empty, []⟩).2 = none) :
    ∀ h ∈ (parse w cfg path cache ⟨fs, Inventory.empty, []⟩).1.inv.hosts,
      hostVars (parse w cfg path cache ⟨fs, Inventory.empty, []⟩).1.inv h =
        [("ansible_host", effRG cfg ++ "-" ++ h ++ "-" ++ effUser cfg),
         ("ansible_connection", "ssh"),
         ("ansible_ssh_common_args", "-F " ++ effConfigPath cfg)] := by
  have hgen : ∀ m ∈ machines, w.runGen (genCommand m.name (effRG cfg)
      (effUser cfg) (effPrivateKey w cfg) (effConfigPath cfg)
      cfg.subscription_id) = none := by
    rw [parse_valid_eq _ _ _ _ _ hrg hu] at hsucc
    simp only [hlist] at hsucc
    exact processMachines_ok_inv _ _ _ _ _ _ _ _ hsucc
  obtain ⟨hinv, _⟩ := parse_ok_inventory w cfg path cache fs machines
    hrg hu hlist hnodup hgen
  intro h hh
  rw [hinv] at hh ⊢
  have hh' : h ∈ machines.map Machine.name := hh
  obtain ⟨m, hm, rfl⟩ := List.mem_map.1 hh'
  simpa [hostVars] using filterMap_machineVars_flatten_mem (effRG cfg)
    (effUser cfg) (effConfigPath cfg) machines m hm hnodup

/-- Witness for C2 at a concrete input: the first of two registered hosts
carries exactly the three expected variables. -/
theorem C2_host_variables_witness :
    hostVars (parse wOk sampleCfg "inventory.azure_arc.yaml" true
        ⟨[], Inventory.empty, []⟩).1.inv "vmA" =
      [("ansible_host",
          effRG sampleCfg ++ "-" ++ "vmA" ++ "-" ++ effUser sampleCfg),
       ("ansible_connection", "ssh"),
       ("ansible_ssh_common_args", "-F " ++ effConfigPath sampleCfg)] :=
  C2_host_variables wOk sampleCfg "inventory.azure_arc.yaml" true []
    [{ name := "vmA" }, { name := "vmB" }] (by decide) (by decide) rfl
    (by decide) rfl "vmA" (by decide)

/-- C3: if the SSH-config-generation command exits non-zero for the i-th
machine in the listed order (here: after a prefix `pre` of length i whose
generation commands all succeeded), `parse` aborts with the propagated
error: exactly the machines before the failure remain registered, each
with its variables set; the failing machine and all later machines are not
registered; and no generation command is attempted after the failing one
(the attempted generation commands are exactly those of the prefix and of
the failing machine, in order). -/
theorem C3_generation_failure_aborts (w : World) (cfg : Config)
    (path : String) (cache : Bool) (fs : List String) (pre : List Machine)
    (mf : Machine) (post : List Machine) (e : String)
    (hrg : isFalsy cfg.resource_group = false)
    (hu : isFalsy cfg.username = false)
    (hlist : w.runList (listCommand (effRG cfg) cfg.subscription_id) =
      Except.ok (pre ++ mf :: post))
    (hnodup : ((pre ++ mf :: post).map Machine.name).Nodup)
    (hpre : ∀ m ∈ pre, w.runGen (genCommand m.name (effRG cfg) (effUser cfg)
      (effPrivateKey w cfg) (effConfigPath cfg) cfg.subscription_id) = none)
    (hfail : w.runGen (genCommand mf.name (effRG cfg) (effUser cfg)
      (effPrivateKey w cfg) (effConfigPath cfg) cfg.subscription_id) =
      some e) :
    (parse w cfg path cache ⟨fs, Inventory.empty, []⟩).2 =
        some (PError.exception ("Failed to generate SSH config: " ++ e)) ∧
      (parse w cfg path cache ⟨fs, Inventory.empty, []⟩).1.inv.hosts =
        pre.map Machine.name ∧
      (∀ h ∈ pre.map Machine.name,
        hostVars (parse w cfg path cache ⟨fs, Inventory.empty, []⟩).1.inv h =
          [("ansible_host", effRG cfg ++ "-" ++ h ++ "-" ++ effUser cfg),
           ("ansible_connection", "ssh"),
           ("ansible_ssh_common_args", "-F " ++ effConfigPath cfg)]) ∧
      mf.name ∉ (parse w cfg path cache ⟨fs, Inventory.empty, []⟩).1.inv.hosts ∧
      (∀ m ∈ post,
        m.name ∉ (parse w cfg path cache ⟨fs, Inventory.empty, []⟩).1.inv.hosts) ∧
      genCmds (parse w cfg path cache ⟨fs, Inventory.empty, []⟩).1.trace =
        (pre ++ [mf]).map (fun m => genCommand m.name (effRG cfg)
          (effUser cfg) (effPrivateKey w cfg) (effConfigPath cfg)
          cfg.subscription_id) := by
  have hmap : (pre.map Machine.name ++
      mf.name :: post.map Machine.name).Nodup := by simpa using hnodup
  have happ := List.nodup_append.1 hmap
  have hpre_nodup : (pre.map Machine.name).Nodup := happ.1
  have hdisj := happ.2.2
  have hmfpre : mf.name ∉ pre.map Machine.name := fun hc =>
    hdisj hc (List.mem_cons_self _ _)
  have hpostpre : ∀ m ∈ post, m.name ∉ pre.map Machine.name := fun m hm hc =>
    hdisj hc (List.mem_cons_of_mem _ (List.mem_map_of_mem _ hm))
  obtain ⟨hinv, herr, htrace⟩ := parse_genfail_run w cfg path cache fs pre
    mf post e hrg hu hlist hpre_nodup hpre hfail
  refine ⟨herr, by rw [hinv], ?_, ?_, ?_, htrace⟩
  · intro h hh
    rw [hinv]
    have hh' : h ∈ pre.map Machine.name := hh
    obtain ⟨m, hm, rfl⟩ := List.mem_map.1 hh'
    simpa [hostVars] using filterMap_machineVars_flatten_mem (effRG cfg)
      (effUser cfg) (effConfigPath cfg) pre m hm hpre_nodup
  · rw [hinv]; exact hmfpre
  · intro m hm; rw [hinv]; exact hpostpre m hm

/-- Witness for C3 at a concrete input: three listed machines, generation
fails for the second; only the first remains registered and only two
generation commands were attempted. -/
theorem C3_generation_failure_aborts_witness :
    (parse wGenFail sampleCfg "inventory.azure_arc.yaml" true
        ⟨[], Inventory.empty, []⟩).2 =
        some (PError.exception
          ("Failed to generate SSH config: " ++ "exit 1")) ∧
      (parse wGenFail sampleCfg "inventory.azure_arc.yaml" true
        ⟨[], Inventory.empty, []⟩).1.inv.hosts = ["vmA"] ∧
      genCmds (parse wGenFail sampleCfg "inventory.azure_arc.yaml" true
          ⟨[], Inventory.empty, []⟩).1.trace =
        [genCommand "vmA" (effRG sampleCfg) (effUser sampleCfg)
          (effPrivateKey wGenFail sampleCfg) (effConfigPath sampleCfg)
          sampleCfg.subscription_id,
         genCommand "vmB" (effRG sampleCfg) (effUser sampleCfg)
          (effPrivateKey wGenFail sampleCfg) (effConfigPath sampleCfg)
          sampleCfg.subscription_id] := by
  have h := C3_generation_failure_aborts wGenFail sampleCfg
    "inventory.azure_arc.yaml" true [] [{ name := "vmA" }] { name := "vmB" }
    [{ name := "vmC" }] "exit 1" (by decide) (by decide) rfl (by decide)
    (by decide) (by decide)
  exact ⟨h.1, h.2.1, h.2.2.2.2.2⟩

end AzureArc
